import Mathlib

/-!
Shallow embedding of the retention-filter and prune-pipeline core of
`scaleway-registry-prune`, together with proofs about its behaviour.

Sources embedded here:
- `scaleway_sdk/src/status.rs` (`Status`)
- `scaleway_sdk/src/registry.rs` (`Namespace`, `Image`, `ImageTag`)
- `scaleway_registry_prune/src/error.rs` (`Error`) and the SDK error shape
- `scaleway_registry_prune/src/main.rs` (`FilterOptions`, `Options`,
  `parse_image_argument`, `get_namespace_and_image`, `filter_image_tags`,
  `read_answer_from_stdin`, and the sort / empty-check / confirmation /
  delete-loop stages of `try_main`)

Modelling conventions: `chrono::DateTime<Utc>` timestamps are integers
(`Int`), preserving their total order; machine integers (`u64` tag counts,
`usize` indices) are `Nat` (the `i as u64` cast in `filter_image_tags` is
lossless on 64-bit targets); fallible operations return `Except`; the
network collaborator is abstracted by passing its successful responses
(or, for deletion, a response function) as arguments.
-/

namespace ScalewayRegistryPrune

/-- Status of a namespace or image (`scaleway_sdk/src/status.rs`).
Namespaces and images share the same status values. -/
inductive Status where
  | unknown
  | ready
  | deleting
  | error
  | locked
  deriving DecidableEq

/-- A registry namespace (`scaleway_sdk/src/registry.rs`, `struct Namespace`). -/
structure Namespace where
  id : String
  name : String
  size : Option Nat
  description : String
  organization_id : String
  status : Status
  status_message : String
  endpoint : String
  is_public : Bool
  created_at : Int
  updated_at : Int
  image_count : Nat
  deriving DecidableEq

/-- A registry image (`scaleway_sdk/src/registry.rs`, `struct Image`). -/
structure Image where
  id : String
  name : String
  namespace_id : String
  status : Status
  status_message : Option String
  visibility : String
  size : Nat
  created_at : Int
  updated_at : Int
  tags : List String
  deriving DecidableEq

/-- An image tag (`scaleway_sdk/src/registry.rs`, `struct ImageTag`).
In the source, `Ord` compares `updated_at` and `PartialEq` compares `id`. -/
structure ImageTag where
  id : String
  name : String
  image_id : String
  status : Status
  digest : String
  created_at : Int
  updated_at : Int
  deriving DecidableEq

/-- Errors produced by the SDK client (`scaleway_sdk`'s error type): a
transport failure, or a non-2xx API response carrying the decoded
`{message}` body (`Error::ApiError(err.message)` in
`scaleway_sdk/src/registry.rs`). -/
inductive SdkError where
  | reqwestError (message : String)
  | apiError (message : String)
  deriving DecidableEq

/-- The application error type (`scaleway_registry_prune/src/error.rs`).
`From<ScalewaySdkError>` wraps every SDK failure as `apiError`. -/
inductive Error where
  | apiError (cause : SdkError)
  | noMatchingImageTagsError
  | noSuchNamespace
  | noSuchImage
  | noImageTagsError
  deriving DecidableEq

/-- Retention options (`scaleway_registry_prune/src/main.rs`,
`struct FilterOptions`): the only policy field the program has is
`keep_last`; there is no `keep_within` field anywhere in the filter. -/
structure FilterOptions where
  keep_last : Option Nat
  deriving DecidableEq

/-- Parsed command-line options (`scaleway_registry_prune/src/main.rs`,
`struct Options`). The Rust field `namespace` is a Lean keyword, so it is
called `namespace_name` here. -/
structure Options where
  token : String
  region : String
  image : String
  namespace_name : String
  filter : FilterOptions
  deriving DecidableEq

/-- `str::splitn(2, '/')` followed by two `next()` calls, as used by
`parse_image_argument`: splits at the first `/` only; `none` when the
input contains no `/` at all (the second `next()` returns `None`). -/
def splitFirstSlash : List Char → Option (List Char × List Char)
  | [] => none
  | c :: cs =>
    if c = '/' then some ([], cs)
    else
      match splitFirstSlash cs with
      | some (l, r) => some (c :: l, r)
      | none => none

/-- `parse_image_argument` (`scaleway_registry_prune/src/main.rs` lines
32-45, identical in the earlier iteration `src/main.rs` lines 8-21):
takes a `<namespace>/<image>` string and returns the pair unless the
input is malformed. -/
def parse_image_argument (arg : String) : Option (String × String) :=
  match splitFirstSlash arg.data with
  | some (nsPart, imagePart) =>
    if nsPart.isEmpty || imagePart.isEmpty then none
    else some (String.mk nsPart, String.mk imagePart)
  | none => none

/-- `get_namespace_and_image` (`scaleway_registry_prune/src/main.rs` lines
69-88), with the registry's two successful listings passed in directly
(an SDK failure of either call would propagate as `Error.apiError`
before this logic runs). -/
def get_namespace_and_image (namespaces : List Namespace) (images : List Image)
    (namespaceName imageName : String) : Except Error (Namespace × Image) :=
  match namespaces.find? (fun ns => ns.name == namespaceName) with
  | none => .error .noSuchNamespace
  | some ns =>
    match (images.filter (fun x => x.namespace_id == ns.id)).find?
        (fun x => x.name == imageName) with
    | none => .error .noSuchImage
    | some img => .ok (ns, img)

/-- `filter_image_tags` (`scaleway_registry_prune/src/main.rs` lines
110-125): `iter().enumerate().filter(..).map(..)` keeping index `i`
exactly when `i > n` for `keep_last = Some(n)`, and every index when
`keep_last` is `None`. -/
def filter_image_tags (options : Options) (image_tags : List ImageTag) :
    List ImageTag :=
  (image_tags.enum.filter fun x =>
    match options.filter.keep_last with
    | some n => decide (x.1 > n)
    | none => true).map Prod.snd

/-- The tag ordering used by `tags.sort_by(|a, b| a.updated_at().cmp(&b.updated_at()))`. -/
def tagLe (a b : ImageTag) : Prop := a.updated_at ≤ b.updated_at

instance : DecidableRel tagLe := fun a b =>
  inferInstanceAs (Decidable (a.updated_at ≤ b.updated_at))

instance : IsTotal ImageTag tagLe := ⟨fun a b => le_total a.updated_at b.updated_at⟩

instance : IsTrans ImageTag tagLe := ⟨fun _ _ _ h1 h2 => le_trans h1 h2⟩

/-- `try_main` lines 187-188: sort ascending by `updated_at`, then reverse.
Rust's `sort_by` is a stable sort; insertion sort is stable and agrees
with every stable sort on every input. -/
def sortTags (tags : List ImageTag) : List ImageTag :=
  (List.insertionSort tagLe tags).reverse

/-- The tag-processing stage of `try_main` (lines 181-194): empty fetch
result is `NoImageTagsError`; otherwise sort descending, filter, and fail
with `NoMatchingImageTagsError` when the plan is empty. -/
def planTags (options : Options) (tags : List ImageTag) :
    Except Error (List ImageTag) :=
  if tags.isEmpty then .error .noImageTagsError
  else
    let filtered := filter_image_tags options (sortTags tags)
    if filtered.isEmpty then .error .noMatchingImageTagsError
    else .ok filtered

/-- The delete loop of `try_main` (lines 210-214): issue one delete call
per plan entry, in plan order; `?` propagates the first SDK failure as
`Error.apiError` and stops the loop. Returns the list of tags for which
a delete call was actually issued, together with the loop's result. -/
def deleteLoop (delete : ImageTag → Except SdkError ImageTag) :
    List ImageTag → List ImageTag × Except Error Unit
  | [] => ([], .ok ())
  | t :: ts =>
    match delete t with
    | .error e => ([t], .error (.apiError e))
    | .ok _ =>
      let rest := deleteLoop delete ts
      (t :: rest.1, rest.2)

/-- Rust `str::trim` on the whitespace characters relevant here
(`Char.isWhitespace` covers space, tab, carriage return and newline):
drop leading whitespace, then trailing whitespace. -/
def trimChars (l : List Char) : List Char :=
  ((l.dropWhile Char.isWhitespace).reverse.dropWhile Char.isWhitespace).reverse

/-- `read_answer_from_stdin` (`scaleway_registry_prune/src/main.rs` lines
127-134) applied to the line that was read: `answer.trim().to_string()`. -/
def read_answer_from_stdin (input : String) : String :=
  String.mk (trimChars input.data)

/-- The confirmation gate of `try_main` (lines 205-218), applied to the
already-read answer: run the delete loop exactly when the answer is `y`
or `Y`; otherwise issue no delete call and finish with `Ok(())`. -/
def confirmStage (answer : String) (delete : ImageTag → Except SdkError ImageTag)
    (plan : List ImageTag) : List ImageTag × Except Error Unit :=
  if answer == "y" || answer == "Y" then deleteLoop delete plan
  else ([], .ok ())

/-- Confirmation from the raw input line: `try_main` trims it via
`read_answer_from_stdin` before the comparison. -/
def confirmAndDelete (rawAnswer : String)
    (delete : ImageTag → Except SdkError ImageTag) (plan : List ImageTag) :
    List ImageTag × Except Error Unit :=
  confirmStage (read_answer_from_stdin rawAnswer) delete plan

/-! ### Helper lemmas about the embedded operations -/

/-- Projecting the values back out of an enumeration recovers the list. -/
lemma enumFrom_map_snd (k : Nat) (l : List ImageTag) :
    (List.enumFrom k l).map Prod.snd = l := by
  induction l generalizing k with
  | nil => rfl
  | cons a as ih => simp [List.enumFrom, ih]

/-- Keeping exactly the entries of an enumeration whose index exceeds `n`
amounts to dropping the first `n + 1 - k` elements when enumeration
starts at `k`. -/
lemma enumFrom_filter_gt_map_snd (n k : Nat) (l : List ImageTag) :
    ((List.enumFrom k l).filter fun x => decide (x.1 > n)).map Prod.snd =
      l.drop (n + 1 - k) := by
  induction l generalizing k with
  | nil => simp
  | cons a as ih =>
    by_cases h : k > n
    · have hk0 : n + 1 - k = 0 := by omega
      have hk1 : n + 1 - (k + 1) = 0 := by omega
      have := ih (k + 1)
      simp [List.enumFrom, List.filter, h, hk0, hk1] at this ⊢
      simpa [hk1] using this
    · have hk : n + 1 - k = (n - k) + 1 := by omega
      have hk1 : n + 1 - (k + 1) = n - k := by omega
      have := ih (k + 1)
      simp [List.enumFrom, List.filter, h, hk, hk1] at this ⊢
      simpa [hk1] using this

/-- With `keep_last = Some(n)` the filter keeps exactly the tags at index
`n + 1` and beyond, i.e. it drops the `n + 1` most recent tags. -/
lemma filter_image_tags_some (options : Options) (n : Nat)
    (h : options.filter.keep_last = some n) (tags : List ImageTag) :
    filter_image_tags options tags = tags.drop (n + 1) := by
  unfold filter_image_tags
  rw [h]
  simpa using enumFrom_filter_gt_map_snd n 0 tags

/-- With `keep_last = None` the filter keeps every tag, in order. -/
lemma filter_image_tags_none (options : Options)
    (h : options.filter.keep_last = none) (tags : List ImageTag) :
    filter_image_tags options tags = tags := by
  unfold filter_image_tags
  rw [h]
  simp

/-- Sorting is a permutation: no tag is gained or lost. -/
lemma sortTags_perm (tags : List ImageTag) : (sortTags tags).Perm tags :=
  (List.reverse_perm _).trans (List.perm_insertionSort tagLe tags)

/-- The sorted list is in descending `updated_at` order. -/
lemma sortTags_sorted (tags : List ImageTag) :
    (sortTags tags).Pairwise fun a b => b.updated_at ≤ a.updated_at := by
  have h := List.sorted_insertionSort tagLe tags
  rw [List.Sorted] at h
  unfold sortTags
  exact (List.pairwise_reverse).mpr h

/-- The delete loop issues calls for a left-to-right portion of the plan:
the attempted tags are an initial segment of the plan. -/
lemma deleteLoop_attempts_initial (delete : ImageTag → Except SdkError ImageTag)
    (plan : List ImageTag) :
    ∃ rest, plan = (deleteLoop delete plan).1 ++ rest := by
  induction plan with
  | nil => exact ⟨[], rfl⟩
  | cons t ts ih =>
    cases hd : delete t with
    | error e => exact ⟨ts, by simp [deleteLoop, hd]⟩
    | ok x =>
      obtain ⟨rest, hrest⟩ := ih
      exact ⟨rest, by simp [deleteLoop, hd]; exact hrest⟩

/-! ### Concrete fixtures -/

/-- A concrete tag whose creation and update time coincide. -/
def mkTag (id name : String) (updated : Int) : ImageTag :=
  { id := id, name := name, image_id := "i1", status := .ready,
    digest := "sha256:" ++ id, created_at := updated, updated_at := updated }

def tag1 : ImageTag := mkTag "t1" "t1" 1

def tag2 : ImageTag := mkTag "t2" "t2" 2

def tag3 : ImageTag := mkTag "t3" "t3" 3

def tag4 : ImageTag := mkTag "t4" "t4" 4

def tag5 : ImageTag := mkTag "t5" "t5" 5

/-- Options with a given `keep_last` policy. -/
def optionsKeepLast (k : Option Nat) : Options :=
  { token := "tok", region := "fr-par", image := "api", namespace_name := "prod",
    filter := { keep_last := k } }

/-! ### Claims -/

/-- C1: the claim states that `keepLast = N` retains exactly the `N` most
recent tags, so five tags `t5..t1` (t5 newest) with `keepLast = 2` should
yield the plan `[t3, t2, t1]`. The code's filter keeps index `i` only when
`i > n`, so it retains the three tags at ranks `0..2` and the plan is
`[t2, t1]`: one entry short of the claim, contradicting the program's own
`--keep-last` help text "Keep the last n versions". -/
theorem c1_keepLast_off_by_one :
    filter_image_tags (optionsKeepLast (some 2))
        (sortTags [tag1, tag2, tag3, tag4, tag5]) = [tag2, tag1] ∧
      [tag2, tag1] ≠ [tag3, tag2, tag1] := by
  constructor
  · decide
  · decide

/-- C2 counterexample: a tag updated at time `100`, with current time `100`
and any `keepWithin` window `D = 5`, satisfies `now - updatedAt < D`, yet
it appears in the deletion plan: `FilterOptions` has no `keepWithin` field
and `filter_image_tags` consults no age window, so the claim that such a
tag is always retained is false. -/
theorem c2_keepWithin_counterexample :
    (100 : Int) - (mkTag "tnow" "tnow" 100).updated_at < 5 ∧
      mkTag "tnow" "tnow" 100 ∈
        filter_image_tags (optionsKeepLast none) (sortTags [mkTag "tnow" "tnow" 100]) := by
  constructor
  · decide
  · decide

/-- C2 (amended): the implemented retention policy consists of `keepLast`
alone; no `keepWithin` window is consulted. A tag at an index past the
`keepLast` cutoff (or any tag when `keepLast` is unset) is included in
the deletion plan even when its `updatedAt` lies within `D` of the
current time. -/
theorem c2_keepWithin_has_no_effect (options : Options) (tags : List ImageTag)
    (now d : Int) (i : Nat) (hi : i < tags.length)
    (_hwithin : now - tags[i].updated_at < d)
    (hrank : ∀ n, options.filter.keep_last = some n → n < i) :
    tags[i] ∈ filter_image_tags options tags := by
  cases h : options.filter.keep_last with
  | none =>
    rw [filter_image_tags_none options h]
    exact List.getElem_mem hi
  | some n =>
    rw [filter_image_tags_some options n h]
    have hn : n < i := hrank n h
    have hj : i - (n + 1) < (tags.drop (n + 1)).length := by
      simp [List.length_drop]
      omega
    refine List.mem_iff_getElem.mpr ⟨i - (n + 1), hj, ?_⟩
    rw [List.getElem_drop]
    congr 1
    omega

/-- C2 witness: with `keep_last = Some(0)`, current time `2` and window
`5`, the older of two tags is within the window yet planned for deletion. -/
theorem c2_keepWithin_has_no_effect_witness :
    [tag2, tag1][1] ∈ filter_image_tags (optionsKeepLast (some 0)) [tag2, tag1] :=
  c2_keepWithin_has_no_effect (optionsKeepLast (some 0)) [tag2, tag1] 2 5 1
    (by decide) (by decide)
    (by
      intro n hn
      simp [optionsKeepLast] at hn
      omega)

/-- C3: the delete loop issues calls strictly in plan order (the attempted
tags form an initial segment of the plan) and stops at the first failing
call, returning its error wrapped as `Error.apiError`. For a plan
`[a, b, c]` whose second delete fails, the calls issued are exactly
`[a, b]` (one success, then the failure), the third tag is never
attempted, and the run's result is the API error; the successful deletion
of `a` is not undone. -/
theorem c3_delete_loop_fail_fast (delete : ImageTag → Except SdkError ImageTag)
    (a b c x : ImageTag) (e : SdkError)
    (ha : delete a = .ok x) (hb : delete b = .error e)
    (hca : c ≠ a) (hcb : c ≠ b) :
    (∀ plan, ∃ rest, plan = (deleteLoop delete plan).1 ++ rest) ∧
      deleteLoop delete [a, b, c] = ([a, b], .error (.apiError e)) ∧
      ([a, b].countP fun t => (delete t).isOk) = 1 ∧
      c ∉ [a, b] := by
  refine ⟨deleteLoop_attempts_initial delete, ?_, ?_, ?_⟩
  · simp [deleteLoop, ha, hb]
  · simp [List.countP_cons, ha, hb, Except.isOk, Except.toBool]
  · simp [hca, hcb]

/-- C3 witness: a concrete delete oracle failing exactly on `tag2`. -/
theorem c3_delete_loop_fail_fast_witness :
    deleteLoop
        (fun t => if t.id = "t2" then .error (.apiError "boom") else .ok t)
        [tag1, tag2, tag3] = ([tag1, tag2], .error (.apiError (.apiError "boom"))) :=
  (c3_delete_loop_fail_fast
    (fun t => if t.id = "t2" then .error (.apiError "boom") else .ok t)
    tag1 tag2 tag3 tag1 (.apiError "boom")
    rfl rfl (by decide) (by decide)).2.1

/-- C4: once the (already-trimmed) answer is read, the delete loop runs
exactly when the answer equals `y` or `Y`; any other answer issues zero
delete calls and finishes with `Ok(())` — an abort that is a successful
outcome, not an error. -/
theorem c4_confirmation_gate (answer : String)
    (delete : ImageTag → Except SdkError ImageTag) (plan : List ImageTag) :
    (answer ≠ "y" → answer ≠ "Y" → confirmStage answer delete plan = ([], .ok ())) ∧
      ((answer = "y" ∨ answer = "Y") →
        confirmStage answer delete plan = deleteLoop delete plan) := by
  constructor
  · intro h1 h2
    simp [confirmStage, h1, h2]
  · rintro (rfl | rfl) <;> simp [confirmStage]

/-- C4 witness: answering `n` issues no delete call and succeeds. -/
theorem c4_confirmation_gate_witness :
    confirmStage "n" (fun t => .ok t) [tag1] = ([], .ok ()) :=
  (c4_confirmation_gate "n" (fun t => .ok t) [tag1]).1 (by decide) (by decide)

/-- C5: resolution fails with `NoSuchNamespace` when no listed namespace
has the requested name (case-sensitive equality), and with `NoSuchImage`
when some namespace matches but no image whose `namespace_id` equals that
namespace's `id` has the requested image name — in particular when the
image exists only under a different namespace. -/
theorem c5_resolution_errors (namespaces : List Namespace) (images : List Image)
    (namespaceName imageName : String) :
    ((∀ ns ∈ namespaces, ns.name ≠ namespaceName) →
        get_namespace_and_image namespaces images namespaceName imageName =
          .error .noSuchNamespace) ∧
      (∀ ns, namespaces.find? (fun n => n.name == namespaceName) = some ns →
        (∀ img ∈ images, img.namespace_id = ns.id → img.name ≠ imageName) →
        get_namespace_and_image namespaces images namespaceName imageName =
          .error .noSuchImage) := by
  constructor
  · intro h
    have hfind : namespaces.find? (fun n => n.name == namespaceName) = none := by
      rw [List.find?_eq_none]
      intro ns hns
      simpa using h ns hns
    simp [get_namespace_and_image, hfind]
  · intro ns hfind h
    have himg : (images.filter (fun x => x.namespace_id == ns.id)).find?
        (fun x => x.name == imageName) = none := by
      rw [List.find?_eq_none]
      intro img hmem
      rw [List.mem_filter] at hmem
      have := h img hmem.1 (by simpa using hmem.2)
      simpa using this
    simp [get_namespace_and_image, hfind, himg]

/-- A namespace fixture. -/
def mkNamespace (id name : String) : Namespace :=
  { id := id, name := name, size := none, description := "",
    organization_id := "org", status := .ready, status_message := "",
    endpoint := "rg.fr-par.scw.cloud/" ++ name, is_public := false,
    created_at := 0, updated_at := 0, image_count := 1 }

/-- An image fixture. -/
def mkImage (id name namespaceId : String) : Image :=
  { id := id, name := name, namespace_id := namespaceId, status := .ready,
    status_message := none, visibility := "private", size := 10,
    created_at := 0, updated_at := 0, tags := [] }

/-- C5 witness: an image named `api` exists, but only under the namespace
`dev` (`n2`); resolving `prod/api` fails with `NoSuchImage`, not success. -/
theorem c5_resolution_errors_witness :
    get_namespace_and_image [mkNamespace "n1" "prod", mkNamespace "n2" "dev"]
        [mkImage "i1" "api" "n2"] "prod" "api" = .error .noSuchImage :=
  (c5_resolution_errors [mkNamespace "n1" "prod", mkNamespace "n2" "dev"]
      [mkImage "i1" "api" "n2"] "prod" "api").2
    (mkNamespace "n1" "prod") (by decide) (by decide)

/-- C6: with no `keep_last` policy (and no `keepWithin`, which the code
does not have), the plan is the whole fetched tag list: the filter is the
identity on the sorted list, the plan is a permutation of the fetched
tags, it is in descending `updated_at` order (the order used for display
and for the delete loop, which both iterate the same `filtered_tags`
list), and the pipeline stage returns it as the plan. -/
theorem c6_no_policy_deletes_everything (options : Options) (tags : List ImageTag)
    (h : options.filter.keep_last = none) :
    filter_image_tags options (sortTags tags) = sortTags tags ∧
      (sortTags tags).Perm tags ∧
      ((sortTags tags).Pairwise fun a b => b.updated_at ≤ a.updated_at) ∧
      (tags ≠ [] → planTags options tags = .ok (sortTags tags)) := by
  have hfil := filter_image_tags_none options h (sortTags tags)
  refine ⟨hfil, sortTags_perm tags, sortTags_sorted tags, ?_⟩
  intro hne
  have hlen : (sortTags tags).length = tags.length := (sortTags_perm tags).length_eq
  have hne' : tags.isEmpty = false := by
    cases tags with
    | nil => exact absurd rfl hne
    | cons a l => rfl
  have hsne : (sortTags tags).isEmpty = false := by
    cases hst : sortTags tags with
    | nil =>
      exfalso
      apply hne
      rw [hst] at hlen
      exact (List.length_eq_zero.mp hlen.symm)
    | cons a l => rfl
  simp [planTags, hne', hfil, hsne]

/-- C6 witness: no policy set, two tags, the plan is everything sorted. -/
theorem c6_no_policy_deletes_everything_witness :
    planTags (optionsKeepLast none) [tag1, tag2] = .ok (sortTags [tag1, tag2]) :=
  (c6_no_policy_deletes_everything (optionsKeepLast none) [tag1, tag2] rfl).2.2.2
    (by decide)

/-- C7: an image with an empty fetched tag list fails with
`NoImageTagsError` for every option value: the early-return fires before
the retention filter can contribute, so in particular the result is never
the filter-stage error `NoMatchingImageTagsError`. -/
theorem c7_empty_tags_error (options : Options) :
    planTags options [] = .error .noImageTagsError := rfl

/-- C8: for a non-empty tag list with `keep_last = Some(n)` and
`n ≥ length`, the filter drops to the empty plan (the code retains
indices `0..n`, which covers the whole list), and the pipeline stage
fails with `NoMatchingImageTagsError` instead of proceeding. -/
theorem c8_keepLast_ge_length_empty_plan (options : Options) (tags : List ImageTag)
    (n : Nat) (hne : tags ≠ []) (hkl : options.filter.keep_last = some n)
    (hn : tags.length ≤ n) :
    filter_image_tags options (sortTags tags) = [] ∧
      planTags options tags = .error .noMatchingImageTagsError := by
  have hlen : (sortTags tags).length = tags.length := (sortTags_perm tags).length_eq
  have hfil : filter_image_tags options (sortTags tags) = [] := by
    rw [filter_image_tags_some options n hkl]
    exact List.drop_eq_nil_of_le (by omega)
  refine ⟨hfil, ?_⟩
  have hne' : tags.isEmpty = false := by
    cases tags with
    | nil => exact absurd rfl hne
    | cons a l => rfl
  simp [planTags, hne', hfil]

/-- C8 witness: one tag, `keep_last = Some(1)`. -/
theorem c8_keepLast_ge_length_empty_plan_witness :
    planTags (optionsKeepLast (some 1)) [tag1] = .error .noMatchingImageTagsError :=
  (c8_keepLast_ge_length_empty_plan (optionsKeepLast (some 1)) [tag1] 1
    (by decide) rfl (by decide)).2

/-- A slash-free character list makes `splitFirstSlash` return `none`. -/
lemma splitFirstSlash_of_not_mem (l : List Char) (h : '/' ∉ l) :
    splitFirstSlash l = none := by
  induction l with
  | nil => rfl
  | cons c cs ih =>
    have hc : ¬c = '/' := fun hc => h (by simp [hc])
    have hcs : '/' ∉ cs := fun hm => h (List.mem_cons_of_mem _ hm)
    simp [splitFirstSlash, hc, ih hcs]

/-- `splitFirstSlash` splits exactly at the first slash. -/
lemma splitFirstSlash_append (a b : List Char) (h : '/' ∉ a) :
    splitFirstSlash (a ++ '/' :: b) = some (a, b) := by
  induction a with
  | nil => simp [splitFirstSlash]
  | cons c cs ih =>
    have hc : ¬c = '/' := fun hc => h (by simp [hc])
    have hcs : '/' ∉ cs := fun hm => h (List.mem_cons_of_mem _ hm)
    simp [splitFirstSlash, hc, ih hcs]

/-- C9: `parse_image_argument` splits at the first `/` only, returns
`none` exactly when there is no `/` or either side of the first `/` is
empty, and satisfies the five stated laws. -/
theorem c9_parse_image_argument_laws :
    (∀ s : String, '/' ∉ s.data → parse_image_argument s = none) ∧
      (∀ a b : List Char, '/' ∉ a →
        ((a = [] ∨ b = []) →
          parse_image_argument (String.mk (a ++ '/' :: b)) = none) ∧
        (a ≠ [] → b ≠ [] →
          parse_image_argument (String.mk (a ++ '/' :: b)) =
            some (String.mk a, String.mk b))) ∧
      parse_image_argument "ns/img" = some ("ns", "img") ∧
      parse_image_argument "ns" = none ∧
      parse_image_argument "/img" = none ∧
      parse_image_argument "ns/" = none ∧
      parse_image_argument "ns/sub/img" = some ("ns", "sub/img") := by
  refine ⟨?_, ?_, by decide, by decide, by decide, by decide, by decide⟩
  · intro s hs
    simp [parse_image_argument, splitFirstSlash_of_not_mem s.data hs]
  · intro a b ha
    constructor
    · rintro (rfl | rfl)
      · simp [parse_image_argument, splitFirstSlash]
      · have hs := splitFirstSlash_append a [] ha
        simp [parse_image_argument, hs]
    · intro hna hnb
      have ha' : a.isEmpty = false := by
        cases a with
        | nil => exact absurd rfl hna
        | cons _ _ => rfl
      have hb' : b.isEmpty = false := by
        cases b with
        | nil => exact absurd rfl hnb
        | cons _ _ => rfl
      simp [parse_image_argument, splitFirstSlash_append _ _ ha, ha', hb']

/-- C9 witness: a slash-free argument is rejected. -/
theorem c9_parse_image_argument_laws_witness :
    parse_image_argument "registry" = none :=
  c9_parse_image_argument_laws.1 "registry" (by decide)

/-- C10: the confirmation answer is trimmed of leading and trailing
whitespace (including the trailing newline) before the comparison, so any
input line trimming to `y` or `Y` — such as `"y\n"` or `"  Y  "` — is
affirmative and the delete loop runs. -/
theorem c10_answer_trimmed (rawAnswer : String)
    (delete : ImageTag → Except SdkError ImageTag) (plan : List ImageTag) :
    ((read_answer_from_stdin rawAnswer = "y" ∨
        read_answer_from_stdin rawAnswer = "Y") →
      confirmAndDelete rawAnswer delete plan = deleteLoop delete plan) ∧
      read_answer_from_stdin "y\n" = "y" ∧
      read_answer_from_stdin "  Y  " = "Y" := by
  refine ⟨?_, by decide, by decide⟩
  rintro (h | h) <;> simp [confirmAndDelete, confirmStage, h]

/-- C10 witness: the raw line `"y\n"` trims to `y` and deletion proceeds. -/
theorem c10_answer_trimmed_witness :
    confirmAndDelete "y\n" (fun t => .ok t) [tag1] =
      deleteLoop (fun t => .ok t) [tag1] :=
  (c10_answer_trimmed "y\n" (fun t => .ok t) [tag1]).1 (Or.inl (by decide))

end ScalewayRegistryPrune
